import Mathlib

/-!
Shallow embedding of the aws-prime-video-xray-clone processing pipeline
(src/backend), together with proofs checking the natural-language
specification against the code.

Python dictionaries (the Lambda events and the DynamoDB items) are embedded
as association lists over a small inductive type of Python values; Python
strings are Lean strings, with character-level reasoning done on List Char.
External side effects (S3, Rekognition, DynamoDB, the local file system) are
recorded as an explicit trace of actions; a handler returns the trace it
produced together with either the updated event or the exception it raised.
-/

/-- Embedding of the Python values the pipeline stores in events and
DynamoDB items: None, strings, non-negative integers, lists and dicts. -/
inductive PyVal where
  | none : PyVal
  | str : String → PyVal
  | nat : Nat → PyVal
  | list : List PyVal → PyVal
  | dict : List (String × PyVal) → PyVal

/-- Embedding of the Python exceptions the embedded code can raise. -/
inductive PyErr where
  | valueError : String → PyErr
  | typeError : PyErr
  | attributeError : PyErr
  | keyError : PyErr
  | zeroDivisionError : PyErr
  | exception : String → PyErr
deriving DecidableEq

/-- A Python dict, as used for the Lambda event payloads and DynamoDB items. -/
abbrev PyDict := List (String × PyVal)

/-- First value bound to a key, scanning left to right (dict lookup). -/
def lookupKey : PyDict → String → Option PyVal
  | [], _ => Option.none
  | (k, v) :: rest, key => if k == key then Option.some v else lookupKey rest key

/-- Python dict.get(key): the bound value, or None when the key is absent. -/
def pyGet (d : PyDict) (key : String) : PyVal :=
  (lookupKey d key).getD PyVal.none

/-- Python dict.get(key, default): the bound value, or the default. -/
def pyGetD (d : PyDict) (key : String) (dflt : PyVal) : PyVal :=
  (lookupKey d key).getD dflt

/-- Bind a key to a value, replacing an existing binding of that key and
appending otherwise (single-key Python dict assignment). -/
def setKey : PyDict → String → PyVal → PyDict
  | [], key, v => [(key, v)]
  | (k, w) :: rest, key, v =>
      if k == key then (k, v) :: rest else (k, w) :: setKey rest key v

/-- Python dict.update: fold the new bindings into the dict left to right. -/
def pyUpdate (d : PyDict) (updates : PyDict) : PyDict :=
  updates.foldl (fun acc kv => setKey acc kv.1 kv.2) d

/-- Python truthiness of an embedded value ('or' and 'if not x' semantics). -/
def truthy : PyVal → Bool
  | .none => false
  | .str s => !(s == "")
  | .nat n => !(n == 0)
  | .list xs => !xs.isEmpty
  | .dict d => !d.isEmpty

/-- Python value.get(key, default) where value is expected to be a dict;
subscripting a non-dict this way raises AttributeError (no .get attribute). -/
def pyValGetD (v : PyVal) (key : String) (dflt : PyVal) : Except PyErr PyVal :=
  match v with
  | .dict fs => .ok (pyGetD fs key dflt)
  | _ => .error .attributeError

/-- Python value[key] where value is expected to be a dict; a missing key
raises KeyError, subscripting a non-dict raises TypeError. -/
def pySubscript (v : PyVal) (key : String) : Except PyErr PyVal :=
  match v with
  | .dict fs =>
      match lookupKey fs key with
      | Option.some x => .ok x
      | Option.none => .error .keyError
  | _ => .error .typeError

/-- Equality test used for DynamoDB key attributes. Modelled from the spec:
the table's partition and sort keys are scalars (video_name string, padded
frame_time string), so only scalar values compare equal as keys. -/
def scalarEq : PyVal → PyVal → Bool
  | .none, .none => true
  | .str a, .str b => a == b
  | .nat a, .nat b => a == b
  | _, _ => false

/-- External calls made by the pipeline, recorded as a trace. -/
inductive Act where
  | s3Download : String → Act
  | s3UploadFile : String → Act
  | s3UploadJson : String → PyVal → Act
  | rekognitionCall : PyVal → String → Act
  | ddbPutItem : PyDict → Act
  | ddbQuery : PyVal → String → Act

/-- Decimal digit characters of a natural number, most significant first,
computed with a fuel argument so that the definition is structural (the fuel
n+1 always suffices). Embeds the digit sequence Python renders for an int. -/
def natDigitsAux : Nat → Nat → List Char
  | 0, _ => []
  | fuel+1, n =>
      if n < 10 then [Nat.digitChar n]
      else natDigitsAux fuel (n / 10) ++ [Nat.digitChar (n % 10)]

/-- Decimal digit characters of a natural number, most significant first. -/
def natDigits (n : Nat) : List Char := natDigitsAux (n + 1) n

/-- Embedding of the Python format expression f-string with format spec 05
applied to a non-negative int frame_time: the decimal digits left-padded with
zeros to at least five characters. Used both by
VideoCutterS3.extract_frames_and_upload_to_s3 (frame_time_str) and by
ProcessImages.save_results_in_dynamodb (the DynamoDB sort key). -/
def padded (n : Nat) : List Char :=
  List.replicate (5 - (natDigits n).length) '0' ++ natDigits n

/-- Numeric value of a digit character. -/
def digitVal (c : Char) : Nat := c.toNat - 48

/-- Whether a character is a decimal digit. -/
def isDigitCh (c : Char) : Bool := decide (48 ≤ c.toNat) && decide (c.toNat ≤ 57)

/-- Value denoted by a list of digit characters, most significant first. -/
def valDigits : List Char → Nat
  | [] => 0
  | c :: rest => digitVal c * 10 ^ rest.length + valDigits rest

/-- Strict lexicographic order on character lists by code point, the order in
which the key-value store sorts its (ASCII) sort keys. -/
def lexLt : List Char → List Char → Bool
  | _, [] => false
  | [], _ :: _ => true
  | a :: as, b :: bs =>
      if a.toNat < b.toNat then true
      else if a.toNat = b.toNat then lexLt as bs
      else false

/-- Embedding of Python str.replace for a non-empty pattern: replace every
non-overlapping occurrence, scanning left to right. Defined with a fuel
argument (s.length + 1 always suffices) so the definition is structural. -/
def pyReplaceAux : Nat → List Char → List Char → List Char → List Char
  | 0, s, _, _ => s
  | _+1, [], _, _ => []
  | fuel+1, c :: cs, pat, rep =>
      if !pat.isEmpty && pat.isPrefixOf (c :: cs) then
        rep ++ pyReplaceAux fuel ((c :: cs).drop pat.length) pat rep
      else
        c :: pyReplaceAux fuel cs pat rep

/-- Embedding of Python str.replace (all occurrences, left to right). -/
def pyReplace (s pat rep : List Char) : List Char :=
  pyReplaceAux (s.length + 1) s pat rep

/-- Whether a pattern occurs as a contiguous run anywhere in a list. -/
def containsSeq (pat : List Char) : List Char → Bool
  | [] => false
  | c :: cs => pat.isPrefixOf (c :: cs) || containsSeq pat cs

/-- Characters before the first occurrence of a (non-empty) pattern; the
whole list when the pattern does not occur. Embeds the Python expression
s.split(pattern)[0]. -/
def takeBefore : List Char → List Char → List Char
  | [], _ => []
  | c :: cs, pat => if pat.isPrefixOf (c :: cs) then [] else c :: takeBefore cs pat

/-- Characters after the last '/' (the whole list if none); embeds the
Python expression s.split("/")[-1]. -/
def lastSegment (s : List Char) : List Char :=
  s.foldl (fun acc c => if c == '/' then [] else acc ++ [c]) []

/-- An insertion sort parametrised by a Boolean comparison. -/
def insertOrd (le : PyDict → PyDict → Bool) (x : PyDict) : List PyDict → List PyDict
  | [] => [x]
  | y :: ys => if le x y then x :: y :: ys else y :: insertOrd le x ys

/-- Insertion sort parametrised by a Boolean comparison. -/
def sortOrd (le : PyDict → PyDict → Bool) : List PyDict → List PyDict
  | [] => []
  | x :: xs => insertOrd le x (sortOrd le xs)

/-- Ascending comparison of two items by their string sort key. -/
def skLe (a b : PyDict) : Bool :=
  match pyGet a "SK", pyGet b "SK" with
  | .str sa, .str sb => !(lexLt sb.data sa.data)
  | _, _ => true

/-- Modelled from the spec: DynamoDBHelper.put_item (the helper module
common/helpers/dynamodb_helper.py is not part of the source snapshot). The
spec describes the key-value store put as an idempotent upsert under
partition key PK and sort key SK: writing a record replaces any record with
the same (PK, SK) and adds it otherwise. -/
def ddb_put_item (table : List PyDict) (item : PyDict) : List PyDict :=
  item :: table.filter (fun j =>
    !(scalarEq (pyGet j "PK") (pyGet item "PK") &&
      scalarEq (pyGet j "SK") (pyGet item "SK")))

/-- Whether an item belongs to the result set of a begins-with query. -/
def ddbQueryPred (pk : PyVal) (skPref : String) (j : PyDict) : Bool :=
  scalarEq (pyGet j "PK") pk &&
    match pyGet j "SK" with
    | .str s => skPref.data.isPrefixOf s.data
    | _ => false

/-- Modelled from the spec: DynamoDBHelper.query_by_pk_and_sk_begins_with
(missing from the source snapshot). The spec describes the query as
returning all records under the partition key whose sort key begins with the
given prefix, ordered ascending by the sort key. -/
def ddb_query_begins_with (table : List PyDict) (pk : PyVal) (skPref : String) :
    List PyDict :=
  sortOrd skLe (table.filter (ddbQueryPred pk skPref))

/-- Embedding of ProcessImages.save_results_in_dynamodb: the FrameResult
item it upserts. The sort key is the zero-padded frame_time with no prefix,
and the celebrities attribute is whatever ProcessImages.draw_faces returned. -/
def mkFrameResultItem (input_video_name : PyVal) (frame_time : Nat)
    (total_celebrities : PyVal) (resp : PyVal) (s3_key prockey : String)
    (bucket : PyVal) : PyDict :=
  [("PK", input_video_name),
   ("SK", .str (String.mk (padded frame_time))),
   ("celebrities", total_celebrities),
   ("rekognition_detect_face_response", resp),
   ("s3_key_raw_image", .str s3_key),
   ("s3_key_processed_image", .str prockey),
   ("s3_bucket_name", bucket)]

/-- Embedding of ProcessImages.save_results_in_dynamodb acting on a table. -/
def save_results_in_dynamodb (table : List PyDict) (input_video_name : PyVal)
    (frame_time : Nat) (total_celebrities : PyVal) (resp : PyVal)
    (s3_key prockey : String) (bucket : PyVal) : List PyDict :=
  ddb_put_item table
    (mkFrameResultItem input_video_name frame_time total_celebrities resp
      s3_key prockey bucket)

/-- Embedding of ArrangeFinalResults.load_results_from_dynamodb: query the
table under the video's partition key with sort-key prefix RESULTS#
(self.SK_INITIAL_PREFIX). -/
def load_results_from_dynamodb (table : List PyDict) (pk : PyVal) : List PyDict :=
  ddb_query_begins_with table pk "RESULTS#"

/-- Embedding of the per-face loop body of ImageDrawing.draw_faces: each
iteration increments the count and subscripts the match for its Face,
BoundingBox (with the four fractional coordinates) and Name; the PIL
rectangle and text calls themselves are external drawing effects with no
observable result in the pipeline's data. -/
def drawFacesLoop : List PyVal → Except PyErr Nat
  | [] => .ok 0
  | m :: rest => do
      let face ← pySubscript m "Face"
      let box ← pySubscript face "BoundingBox"
      let _ ← pySubscript box "Left"
      let _ ← pySubscript box "Top"
      let _ ← pySubscript box "Width"
      let _ ← pySubscript box "Height"
      let _ ← pySubscript m "Name"
      let n ← drawFacesLoop rest
      .ok (n + 1)

/-- Embedding of ImageDrawing.draw_faces: returns 0 when the response has no
CelebrityFaces key, and otherwise the number of entries drawn (the method's
documented return value: the total number of celebrities). -/
def imageDrawing_draw_faces (resp : PyVal) : Except PyErr Nat :=
  match resp with
  | .dict fs =>
      match lookupKey fs "CelebrityFaces" with
      | Option.none => .ok 0
      | Option.some v =>
          match v with
          | .list ms => drawFacesLoop ms
          | _ => .error .typeError
  | _ => .error .typeError

/-- Embedding of ProcessImages.draw_faces: it constructs an ImageDrawing,
calls its draw_faces (discarding the returned count) and save_image, and has
no return statement, so the method itself returns None. -/
def processImages_draw_faces (resp : PyVal) : Except PyErr PyVal :=
  match imageDrawing_draw_faces resp with
  | .ok _count => .ok PyVal.none
  | .error e => .error e

/-- Embedding of ProcessImages._generate_s3_processed_image_key:
self.s3_key.replace("raw", "processed"), i.e. replace every occurrence of
the substring raw. -/
def generate_s3_processed_image_key (s3_key : List Char) : List Char :=
  pyReplace s3_key "raw".data "processed".data

/-- Environment of one ProcessImages invocation: the response the external
Rekognition recognize_celebrities call returns for the frame. -/
structure ProcEnv where
  response : PyVal

/-- Embedding of ProcessImages.process_images. Reads s3_bucket_name, s3_key,
input_video_name and frame_time from the event, computes the processed key
by substring replacement (AttributeError when s3_key is not a string),
downloads the frame, calls Rekognition, draws faces (the count is discarded,
total_celebrities becomes None), uploads the annotated image, writes the
FrameResult item, and returns the event updated with its three output keys.
The frame_time f-string with format spec 05 raises for a non-int frame_time. -/
def process_images (ev : PyDict) (env : ProcEnv) : List Act × Except PyErr PyDict :=
  match pyGet ev "s3_key" with
  | .str s3_key =>
      let bucket := pyGet ev "s3_bucket_name"
      let prockey : String := String.mk (generate_s3_processed_image_key s3_key.data)
      match processImages_draw_faces env.response with
      | .error e => ([.s3Download s3_key, .rekognitionCall bucket s3_key], .error e)
      | .ok total_celebrities =>
          match pyGet ev "frame_time" with
          | .nat t =>
              let item := mkFrameResultItem (pyGet ev "input_video_name") t
                total_celebrities env.response s3_key prockey bucket
              ([.s3Download s3_key, .rekognitionCall bucket s3_key,
                .s3UploadFile prockey, .ddbPutItem item],
               .ok (pyUpdate ev
                 [("total_celebrities", total_celebrities),
                  ("rekognition_detect_face_response", env.response),
                  ("s3_processed_image_key", .str prockey)]))
          | _ =>
              ([.s3Download s3_key, .rekognitionCall bucket s3_key,
                .s3UploadFile prockey], .error .typeError)
  | _ => ([], .error .attributeError)

/-- Embedding of ArrangeFinalResults.arrange_final_results: read
input_video_name (pk.split on a non-string raises AttributeError), build the
arranged-results key from the video name with the .mp4 suffix split off,
query the table with sort-key prefix RESULTS#, upload whatever came back as
the manifest, and return the event updated with arranged_results_s3_key.
There is no comparison of the retrieved count against total_images. -/
def arrange_final_results (ev : PyDict) (table : List PyDict) :
    List Act × Except PyErr PyDict :=
  match pyGet ev "input_video_name" with
  | .str pk =>
      let sanitized := takeBefore pk.data ".mp4".data
      let key : String :=
        String.mk ("results/".data ++ sanitized ++ "/arranged_results.json".data)
      let results := load_results_from_dynamodb table (.str pk)
      ([.ddbQuery (.str pk) "RESULTS#",
        .s3UploadJson key (.list (results.map PyVal.dict))],
       .ok (pyUpdate ev [("arranged_results_s3_key", .str key)]))
  | _ => ([], .error .attributeError)

/-- Embedding of the event lookup
event.get("detail", dict()).get("bucket", dict()).get("name") from
ConvertVideoToImages.convert_video_to_images. -/
def getBucketNameVal (ev : PyDict) : Except PyErr PyVal := do
  let b ← pyValGetD (pyGetD ev "detail" (.dict [])) "bucket" (.dict [])
  pyValGetD b "name" PyVal.none

/-- Embedding of the event lookup
event.get("detail", dict()).get("object", dict()).get("key") from
ConvertVideoToImages.convert_video_to_images. -/
def getObjectKeyVal (ev : PyDict) : Except PyErr PyVal := do
  let o ← pyValGetD (pyGetD ev "detail" (.dict [])) "object" (.dict [])
  pyValGetD o "key" PyVal.none

/-- Embedding of ConvertVideoToImages.convert_video_to_images. It validates
the bucket name and the object key (raising ValueError on a falsy value)
before any external work. After validation it derives the video name and
output folder and then constructs VideoCutterS3 passing the keyword argument
input_video_name, which the VideoCutterS3 constructor does not accept
(its parameters are s3_bucket_name, s3_key_input_video and s3_folder_output),
so the call raises TypeError before any download, extraction or upload. -/
def convert_video_to_images (ev : PyDict) : List Act × Except PyErr PyDict :=
  match getBucketNameVal ev with
  | .error e => ([], .error e)
  | .ok bv =>
      if truthy bv then
        match getObjectKeyVal ev with
        | .error e => ([], .error e)
        | .ok kv =>
            if truthy kv then
              match kv with
              | .str s3_key_input_video =>
                  let input_video_name := lastSegment s3_key_input_video.data
                  let _folder := "results/".data ++
                    takeBefore input_video_name ".mp4".data ++ "/raw".data
                  ([], .error .typeError)
              | _ => ([], .error .attributeError)
            else
              ([], .error (.valueError "No S3 key found for the input video!"))
      else
        ([], .error (.valueError "No S3 bucket name found for the input video!"))

/-- Embedding of the correlation-id computation in BaseStepFunction.__init__:
self.correlation_id = self.event.get("correlation_id") or str(uuid.uuid4()).
The uuid is modelled as an externally supplied fresh string. -/
def baseCorrelationId (ev : PyDict) (fresh : String) : PyVal :=
  if truthy (pyGet ev "correlation_id") then pyGet ev "correlation_id"
  else .str fresh

/-- State of an initialized cv2 video capture: whether it opened, how many
frames the stream yields, and the native frame rate reported by the capture. -/
structure VideoCapture where
  isOpened : Bool
  numFrames : Nat
  fps : Nat

/-- Embedding of the sampling loop of
VideoCutterS3.extract_frames_and_upload_to_s3, from position frame_count. A
read at a position beyond the stream fails and the loop breaks, returning
the accumulated screenshots (none were ever accumulated). On a successful
read the body computes int(frame_count / fps) — ZeroDivisionError when fps
is 0 — writes the local screenshot, and then calls
self.s3_helper.upload_object, a method S3Helper does not define (it defines
download_object, upload_object_from_file, upload_object_from_memory and
upload_binary_object), so the body raises AttributeError; the increment of
frame_count by frame_interval is unreachable. -/
def extractLoop (numFrames fps : Nat) (pos : Nat) : Except PyErr (List String) :=
  if pos < numFrames then
    if fps = 0 then .error .zeroDivisionError
    else .error .attributeError
  else .ok []

/-- Embedding of VideoCutterS3.extract_frames_and_upload_to_s3 with the
default frame_rate of 1: raise when the capture is not opened, otherwise run
the sampling loop from frame_count = 0 (as set by initialize_video_capture). -/
def extract_frames_and_upload_to_s3 (cap : VideoCapture) :
    Except PyErr (List String) :=
  if cap.isOpened then extractLoop cap.numFrames cap.fps 0
  else .error (.exception "Video capture object is not initialized")

/-- The pattern the processed-key substitution replaces. -/
def rawPat : List Char := ['r', 'a', 'w']

/-- The key under which ConvertVideoToImages/VideoCutterS3 store a raw frame:
the folder results/{sanitized video name}/raw (convert_video_to_images)
followed by /screenshot_{zero-padded frame_time}.jpg
(extract_frames_and_upload_to_s3). -/
def rawFrameKey (san : List Char) (t : Nat) : List Char :=
  ("results/".data ++ san ++ "/raw".data) ++ "/screenshot_".data ++
    padded t ++ ".jpg".data

/-- Written from the spec's words, for comparison with the code: the raw
frame key with only its raw path segment substituted by processed and no
other part altered. -/
def specProcessedFrameKey (san : List Char) (t : Nat) : List Char :=
  "results/".data ++ san ++ "/processed/screenshot_".data ++
    padded t ++ ".jpg".data

/-- A small ProcessImages event fixture (with a supplied correlation id). -/
def procEvFix : PyDict :=
  [("s3_key", .str "k-raw"), ("frame_time", .nat 0),
   ("input_video_name", .str "v.mp4"), ("correlation_id", .str "u-first")]

/-- The same fixture without a correlation id. -/
def procEvNoCid : PyDict :=
  [("s3_key", .str "k-raw"), ("frame_time", .nat 0),
   ("input_video_name", .str "v.mp4")]

/-- A recognition environment with an empty response dict (no
CelebrityFaces key, hence zero detections). -/
def procEnvFix : ProcEnv := ⟨.dict []⟩

/-- The FrameResult item the fixture run writes. -/
def procItemFix : PyDict :=
  [("PK", .str "v.mp4"), ("SK", .str "00000"), ("celebrities", PyVal.none),
   ("rekognition_detect_face_response", .dict []),
   ("s3_key_raw_image", .str "k-raw"),
   ("s3_key_processed_image", .str "k-processed"),
   ("s3_bucket_name", PyVal.none)]

/-- The trace the fixture run produces. -/
def procTraceFix : List Act :=
  [.s3Download "k-raw", .rekognitionCall PyVal.none "k-raw",
   .s3UploadFile "k-processed", .ddbPutItem procItemFix]

/-- The event returned by the fixture run (with correlation id). -/
def procOutFix : PyDict :=
  procEvFix ++
    [("total_celebrities", PyVal.none),
     ("rekognition_detect_face_response", .dict []),
     ("s3_processed_image_key", .str "k-processed")]

/-- The event returned by the fixture run (without correlation id). -/
def procOutNoCid : PyDict :=
  procEvNoCid ++
    [("total_celebrities", PyVal.none),
     ("rekognition_detect_face_response", .dict []),
     ("s3_processed_image_key", .str "k-processed")]

/-- The trace of running ArrangeFinalResults on the fixture output. -/
def arrTraceFix : List Act :=
  [.ddbQuery (.str "v.mp4") "RESULTS#",
   .s3UploadJson "results/v/arranged_results.json" (.list [])]

/-- The event ArrangeFinalResults returns on the fixture output. -/
def arrOutFix : PyDict :=
  procOutFix ++ [("arranged_results_s3_key", .str "results/v/arranged_results.json")]

/-- A Rekognition celebrity-face entry as the pipeline consumes it. -/
def faceFix (nm : String) : PyVal :=
  .dict [("Face", .dict [("BoundingBox",
            .dict [("Left", .nat 0), ("Top", .nat 0),
                   ("Width", .nat 1), ("Height", .nat 1)])]),
         ("Name", .str nm)]

/-- A recognition response with two detected celebrities. -/
def respTwoFix : PyVal := .dict [("CelebrityFaces", .list [faceFix "Alice", faceFix "Bob"])]

/-- A ProcessImages event for a frame of video got.mp4 at second 1. -/
def procEvC4 : PyDict :=
  [("s3_bucket_name", .str "b"),
   ("s3_key", .str "results/got/raw/screenshot_00001.jpg"),
   ("input_video_name", .str "got.mp4"), ("frame_time", .nat 1)]

/-- The FrameResult item written for that frame with the two-face response. -/
def itemC4 : PyDict :=
  [("PK", .str "got.mp4"), ("SK", .str "00001"), ("celebrities", PyVal.none),
   ("rekognition_detect_face_response", respTwoFix),
   ("s3_key_raw_image", .str "results/got/raw/screenshot_00001.jpg"),
   ("s3_key_processed_image", .str "results/got/processed/screenshot_00001.jpg"),
   ("s3_bucket_name", .str "b")]

/-- The trace of that run. -/
def traceC4 : List Act :=
  [.s3Download "results/got/raw/screenshot_00001.jpg",
   .rekognitionCall (.str "b") "results/got/raw/screenshot_00001.jpg",
   .s3UploadFile "results/got/processed/screenshot_00001.jpg",
   .ddbPutItem itemC4]

/-- The event that run returns. -/
def outC4 : PyDict :=
  procEvC4 ++
    [("total_celebrities", PyVal.none),
     ("rekognition_detect_face_response", respTwoFix),
     ("s3_processed_image_key", .str "results/got/processed/screenshot_00001.jpg")]

/-- An aggregation event claiming ten frames were processed. -/
def arrEvC2 : PyDict :=
  [("input_video_name", .str "got.mp4"), ("total_images", .nat 10)]

/-- A fully valid triggering event for the ingest stage. -/
def convEvValid : PyDict :=
  [("detail", .dict [("bucket", .dict [("name", .str "my-bucket")]),
    ("object", .dict [("key", .str "videos/got.mp4")])])]

/-! ### Decimal digits and the zero-padded sort key -/

theorem natDigitsAux_fuel_eq (f1 : Nat) : ∀ (f2 n : Nat), n < f1 → n < f2 →
    natDigitsAux f1 n = natDigitsAux f2 n := by
  induction f1 with
  | zero => intro f2 n h1 _; omega
  | succ f ih =>
      intro f2 n h1 h2
      cases f2 with
      | zero => omega
      | succ g =>
          simp only [natDigitsAux]
          by_cases h : n < 10
          · simp [h]
          · have hn : 0 < n := by omega
            have hdiv : n / 10 < n := Nat.div_lt_self hn (by omega)
            simp only [h, if_false]
            rw [ih g (n / 10) (by omega) (by omega)]

theorem natDigits_of_lt {n : Nat} (h : n < 10) : natDigits n = [Nat.digitChar n] := by
  simp [natDigits, natDigitsAux, h]

theorem natDigits_of_ge {n : Nat} (h : 10 ≤ n) :
    natDigits n = natDigits (n / 10) ++ [Nat.digitChar (n % 10)] := by
  have hdiv : n / 10 < n := Nat.div_lt_self (by omega) (by omega)
  show natDigitsAux (n + 1) n = _
  simp only [natDigitsAux, Nat.not_lt.mpr h, if_false]
  rw [natDigitsAux_fuel_eq n (n / 10 + 1) (n / 10) (by omega) (by omega)]
  rfl

theorem isDigitCh_digitChar {m : Nat} (h : m < 10) : isDigitCh (Nat.digitChar m) = true := by
  interval_cases m <;> decide

theorem digitVal_digitChar {m : Nat} (h : m < 10) : digitVal (Nat.digitChar m) = m := by
  interval_cases m <;> decide

theorem natDigits_ne_nil (n : Nat) : natDigits n ≠ [] := by
  by_cases h : n < 10
  · rw [natDigits_of_lt h]; simp
  · rw [natDigits_of_ge (by omega)]; simp

theorem valDigits_append_single (ds : List Char) (c : Char) :
    valDigits (ds ++ [c]) = 10 * valDigits ds + digitVal c := by
  induction ds with
  | nil => simp [valDigits]
  | cons d ds ih =>
      simp only [List.cons_append, valDigits, List.append_eq]
      rw [ih]
      simp only [List.length_append, List.length_cons, List.length_nil]
      ring

theorem valDigits_natDigits (n : Nat) : valDigits (natDigits n) = n := by
  induction n using Nat.strong_induction_on with
  | _ n ih =>
      by_cases h : n < 10
      · rw [natDigits_of_lt h]
        simp [valDigits, digitVal_digitChar h]
      · have hdiv : n / 10 < n := Nat.div_lt_self (by omega) (by omega)
        rw [natDigits_of_ge (by omega), valDigits_append_single,
          ih (n / 10) hdiv, digitVal_digitChar (Nat.mod_lt n (by omega))]
        omega

theorem natDigits_all_digits (n : Nat) : ∀ c ∈ natDigits n, isDigitCh c = true := by
  induction n using Nat.strong_induction_on with
  | _ n ih =>
      by_cases h : n < 10
      · rw [natDigits_of_lt h]
        simpa using isDigitCh_digitChar h
      · have hdiv : n / 10 < n := Nat.div_lt_self (by omega) (by omega)
        rw [natDigits_of_ge (by omega)]
        intro c hc
        rcases List.mem_append.mp hc with hc | hc
        · exact ih (n / 10) hdiv c hc
        · simp only [List.mem_singleton] at hc
          subst hc
          exact isDigitCh_digitChar (Nat.mod_lt n (by omega))

theorem natDigits_length_le (n : Nat) : ∀ k, 1 ≤ k → n < 10 ^ k →
    (natDigits n).length ≤ k := by
  induction n using Nat.strong_induction_on with
  | _ n ih =>
      intro k hk hlt
      by_cases h : n < 10
      · rw [natDigits_of_lt h]; simpa using hk
      · have hdiv : n / 10 < n := Nat.div_lt_self (by omega) (by omega)
        cases k with
        | zero => omega
        | succ k' =>
            have hk' : 1 ≤ k' := by
              rcases Nat.eq_zero_or_pos k' with rfl | hpos
              · norm_num at hlt; omega
              · exact hpos
            have hnd : n / 10 < 10 ^ k' := by
              have hpow : n < 10 ^ k' * 10 := by
                rw [← pow_succ]; exact hlt
              omega
            rw [natDigits_of_ge (by omega)]
            simp only [List.length_append, List.length_cons, List.length_nil]
            have := ih (n / 10) hdiv k' hk' hnd
            omega

theorem padded_length {n : Nat} (h : n ≤ 99999) : (padded n).length = 5 := by
  have h5 : (natDigits n).length ≤ 5 := by
    apply natDigits_length_le n 5 (by omega)
    norm_num
    omega
  have h1 : natDigits n ≠ [] := natDigits_ne_nil n
  have h1' : 1 ≤ (natDigits n).length := by
    cases e : natDigits n with
    | nil => exact absurd e h1
    | cons a l => simp
  simp only [padded, List.length_append, List.length_replicate]
  omega

theorem valDigits_replicate_zero (k : Nat) (ds : List Char) :
    valDigits (List.replicate k '0' ++ ds) = valDigits ds := by
  induction k with
  | zero => simp
  | succ k ih =>
      simp only [List.replicate_succ, List.cons_append, valDigits, List.append_eq]
      rw [ih]
      have h0 : digitVal '0' = 0 := by decide
      simp [h0]

theorem valDigits_padded (n : Nat) : valDigits (padded n) = n := by
  rw [padded, valDigits_replicate_zero, valDigits_natDigits]

theorem padded_all_digits (n : Nat) : ∀ c ∈ padded n, isDigitCh c = true := by
  intro c hc
  rcases List.mem_append.mp hc with hc | hc
  · have := List.eq_of_mem_replicate hc
    subst this
    decide
  · exact natDigits_all_digits n c hc

theorem valDigits_lt_pow (l : List Char) (h : ∀ c ∈ l, isDigitCh c = true) :
    valDigits l < 10 ^ l.length := by
  induction l with
  | nil => simp [valDigits]
  | cons c rest ih =>
      have hc : isDigitCh c = true := h c (List.mem_cons_self c rest)
      have hdv : digitVal c ≤ 9 := by
        simp only [isDigitCh, Bool.and_eq_true, decide_eq_true_eq] at hc
        simp only [digitVal]
        omega
      have hrest : valDigits rest < 10 ^ rest.length :=
        ih (fun x hx => h x (List.mem_cons_of_mem c hx))
      simp only [valDigits, List.length_cons]
      calc digitVal c * 10 ^ rest.length + valDigits rest
          < digitVal c * 10 ^ rest.length + 10 ^ rest.length := by omega
        _ = (digitVal c + 1) * 10 ^ rest.length := by ring
        _ ≤ 10 * 10 ^ rest.length := by
            exact Nat.mul_le_mul_right _ (by omega)
        _ = 10 ^ (rest.length + 1) := by ring

theorem lexLt_of_valDigits_lt : ∀ (a b : List Char), a.length = b.length →
    (∀ c ∈ a, isDigitCh c = true) → (∀ c ∈ b, isDigitCh c = true) →
    valDigits a < valDigits b → lexLt a b = true := by
  intro a
  induction a with
  | nil =>
      intro b hlen _ _ hval
      cases b with
      | nil => simp [valDigits] at hval
      | cons y b' => simp at hlen
  | cons x a' ih =>
      intro b hlen hda hdb hval
      cases b with
      | nil => simp at hlen
      | cons y b' =>
          have hlen' : a'.length = b'.length := by simpa using hlen
          have hxd : isDigitCh x = true := hda x (List.mem_cons_self x a')
          have hyd : isDigitCh y = true := hdb y (List.mem_cons_self y b')
          have hda' : ∀ c ∈ a', isDigitCh c = true :=
            fun c hc => hda c (List.mem_cons_of_mem x hc)
          have hdb' : ∀ c ∈ b', isDigitCh c = true :=
            fun c hc => hdb c (List.mem_cons_of_mem y hc)
          simp only [isDigitCh, Bool.and_eq_true, decide_eq_true_eq] at hxd hyd
          simp only [valDigits, hlen'] at hval
          simp only [lexLt]
          by_cases hlt : x.toNat < y.toNat
          · simp [hlt]
          · by_cases heq : x.toNat = y.toNat
            · have hdveq : digitVal x = digitVal y := by
                simp only [digitVal, heq]
              rw [hdveq] at hval
              have hval' : valDigits a' < valDigits b' :=
                Nat.lt_of_add_lt_add_left hval
              simp [hlt, heq, ih b' hlen' hda' hdb' hval']
            · exfalso
              have hgt : digitVal y < digitVal x := by
                simp only [digitVal]
                omega
              have hb' : valDigits b' < 10 ^ b'.length :=
                valDigits_lt_pow b' hdb'
              have : valDigits (y :: b') < valDigits (x :: a') := by
                simp only [valDigits, hlen']
                calc digitVal y * 10 ^ b'.length + valDigits b'
                    < digitVal y * 10 ^ b'.length + 10 ^ b'.length := by omega
                  _ = (digitVal y + 1) * 10 ^ b'.length := by ring
                  _ ≤ digitVal x * 10 ^ b'.length :=
                      Nat.mul_le_mul_right _ (by omega)
                  _ ≤ digitVal x * 10 ^ b'.length + valDigits a' := by omega
              simp only [valDigits, hlen'] at this
              omega

/-! ### Occurrence replacement (Python str.replace) -/

theorem pyReplaceAux_fuel_eq (f1 : Nat) : ∀ (f2 : Nat) (s pat rep : List Char),
    s.length < f1 → s.length < f2 →
    pyReplaceAux f1 s pat rep = pyReplaceAux f2 s pat rep := by
  induction f1 with
  | zero => intro f2 s pat rep h1 _; omega
  | succ f ih =>
      intro f2 s pat rep h1 h2
      cases f2 with
      | zero => omega
      | succ g =>
          cases s with
          | nil => simp only [pyReplaceAux]
          | cons c cs =>
              simp only [pyReplaceAux]
              cases hcond : (!pat.isEmpty && pat.isPrefixOf (c :: cs)) with
              | true =>
                  simp only [if_true]
                  have hpat : 1 ≤ pat.length := by
                    cases pat with
                    | nil => simp at hcond
                    | cons p ps => simp
                  have hf : ((c :: cs).drop pat.length).length < f := by
                    simp only [List.length_drop, List.length_cons] at *
                    omega
                  have hg : ((c :: cs).drop pat.length).length < g := by
                    simp only [List.length_drop, List.length_cons] at *
                    omega
                  rw [ih g ((c :: cs).drop pat.length) pat rep hf hg]
              | false =>
                  simp only [if_false, Bool.false_eq_true]
                  have hf : cs.length < f := by
                    simp only [List.length_cons] at h1
                    omega
                  have hg : cs.length < g := by
                    simp only [List.length_cons] at h2
                    omega
                  rw [ih g cs pat rep hf hg]

theorem pyReplace_cons_noMatch {pat : List Char} {c : Char} {cs rep : List Char}
    (h : pat.isPrefixOf (c :: cs) = false) :
    pyReplace (c :: cs) pat rep = c :: pyReplace cs pat rep := by
  show pyReplaceAux ((c :: cs).length + 1) (c :: cs) pat rep = _
  simp only [List.length_cons, pyReplaceAux, h, Bool.and_false, if_false,
    Bool.false_eq_true]
  rfl

theorem isPrefixOf_append_self (pat s : List Char) :
    pat.isPrefixOf (pat ++ s) = true := by
  induction pat with
  | nil => simp [List.isPrefixOf]
  | cons p ps ih => simp [List.isPrefixOf, ih]

theorem pyReplace_match (p : Char) (ps s rep : List Char) :
    pyReplace ((p :: ps) ++ s) (p :: ps) rep = rep ++ pyReplace s (p :: ps) rep := by
  have hpfx : (p :: ps).isPrefixOf (p :: (ps ++ s)) = true := by
    rw [show (p :: (ps ++ s) : List Char) = (p :: ps) ++ s from rfl]
    exact isPrefixOf_append_self (p :: ps) s
  show pyReplaceAux (((p :: ps) ++ s).length + 1) ((p :: ps) ++ s) (p :: ps) rep = _
  rw [show ((p :: ps) ++ s : List Char) = p :: (ps ++ s) from rfl]
  simp only [pyReplaceAux, hpfx, List.isEmpty_cons, Bool.not_false,
    Bool.true_and, if_true]
  rw [show List.drop (p :: ps).length (p :: (ps ++ s)) = s from by simp]
  congr 1
  apply pyReplaceAux_fuel_eq
  · simp only [List.length_cons, List.length_append]
    omega
  · omega

theorem isPrefixOf_of_append_cons {pat : List Char} {c : Char} :
    ∀ (l1 l2 : List Char), c ∉ pat →
    pat.isPrefixOf (l1 ++ c :: l2) = true → pat.isPrefixOf l1 = true := by
  induction pat with
  | nil => intro l1 l2 _ _; simp [List.isPrefixOf]
  | cons p ps ih =>
      intro l1 l2 hc h
      cases l1 with
      | nil =>
          exfalso
          simp only [List.nil_append, List.isPrefixOf, Bool.and_eq_true,
            beq_iff_eq] at h
          exact hc (by simp [h.1])
      | cons a l1' =>
          simp only [List.cons_append, List.isPrefixOf, Bool.and_eq_true,
            beq_iff_eq] at h ⊢
          exact ⟨h.1, ih l1' l2 (fun hm => hc (List.mem_cons_of_mem p hm)) h.2⟩

theorem pyReplace_append_skip {pat rep : List Char} {c : Char}
    (hc : c ∉ pat) :
    ∀ {s1 : List Char} (s2 : List Char), containsSeq pat s1 = false →
    pyReplace (s1 ++ c :: s2) pat rep = s1 ++ pyReplace (c :: s2) pat rep := by
  intro s1
  induction s1 with
  | nil => intro s2 _; simp
  | cons a s1' ih =>
      intro s2 h1
      simp only [containsSeq, Bool.or_eq_false_iff] at h1
      have hpfx2 : pat.isPrefixOf (a :: (s1' ++ c :: s2)) = false := by
        cases heq : pat.isPrefixOf (a :: (s1' ++ c :: s2)) with
        | false => rfl
        | true =>
            exfalso
            have := isPrefixOf_of_append_cons (a :: s1') s2 hc
              (by simpa using heq)
            rw [h1.1] at this
            exact Bool.false_ne_true this
      rw [show (a :: s1') ++ c :: s2 = a :: (s1' ++ c :: s2) from rfl,
        pyReplace_cons_noMatch hpfx2, ih s2 h1.2]
      rfl

theorem pyReplace_no_occurrence {pat rep : List Char} :
    ∀ {s : List Char}, containsSeq pat s = false → pyReplace s pat rep = s := by
  intro s
  induction s with
  | nil => intro _; rfl
  | cons c cs ih =>
      intro h
      simp only [containsSeq, Bool.or_eq_false_iff] at h
      rw [pyReplace_cons_noMatch h.1, ih h.2]

theorem rawPat_pfx_false_head {c : Char} (l : List Char) (h : ('r' == c) = false) :
    rawPat.isPrefixOf (c :: l) = false := by
  simp only [rawPat, List.isPrefixOf, h, Bool.false_and]

theorem rawPat_pfx_false_two {c : Char} (l : List Char) (h : ('a' == c) = false) :
    rawPat.isPrefixOf ('r' :: c :: l) = false := by
  simp only [rawPat, List.isPrefixOf, h, Bool.false_and, Bool.and_false]

theorem containsSeq_raw_cons {c : Char} (l : List Char) (h : ('r' == c) = false) :
    containsSeq rawPat (c :: l) = containsSeq rawPat l := by
  simp only [containsSeq, rawPat_pfx_false_head l h, Bool.false_or]

theorem containsSeq_raw_cons_r {c : Char} (l : List Char) (h : ('a' == c) = false) :
    containsSeq rawPat ('r' :: c :: l) = containsSeq rawPat (c :: l) := by
  simp only [containsSeq, rawPat_pfx_false_two l h, Bool.false_or]

theorem containsSeq_raw_digits_jpg (l : List Char)
    (h : ∀ c ∈ l, isDigitCh c = true) :
    containsSeq rawPat (l ++ ".jpg".data) = false := by
  induction l with
  | nil => decide
  | cons d l' ih =>
      have hd : isDigitCh d = true := h d (List.mem_cons_self d l')
      have hne : ('r' == d) = false := by
        apply beq_eq_false_iff_ne.mpr
        intro he
        rw [← he] at hd
        simp [isDigitCh] at hd
      rw [List.cons_append, containsSeq_raw_cons _ hne]
      exact ih (fun c hc => h c (List.mem_cons_of_mem d hc))

theorem containsSeq_raw_screenshot (r : List Char) :
    containsSeq rawPat ("/screenshot_".data ++ r) = containsSeq rawPat r := by
  rw [show "/screenshot_".data =
    ['/', 's', 'c', 'r', 'e', 'e', 'n', 's', 'h', 'o', 't', '_'] from by decide]
  simp [containsSeq, List.isPrefixOf, rawPat]

theorem containsSeq_raw_tail (t : Nat) :
    containsSeq rawPat ("/screenshot_".data ++ (padded t ++ ".jpg".data)) = false := by
  rw [containsSeq_raw_screenshot]
  exact containsSeq_raw_digits_jpg (padded t) (padded_all_digits t)

/-! ### Dictionary updates and the key-value store -/

theorem lookupKey_setKey_ne (q : String) : ∀ (d : PyDict) (k : String) (v : PyVal),
    k ≠ q → lookupKey (setKey d k v) q = lookupKey d q := by
  intro d
  induction d with
  | nil =>
      intro k v h
      simp only [setKey, lookupKey]
      rw [if_neg (by simpa using h)]
  | cons kv rest ih =>
      intro k v h
      obtain ⟨k0, v0⟩ := kv
      simp only [setKey]
      by_cases he : (k0 == k) = true
      · have hk : k0 = k := beq_iff_eq.mp he
        subst hk
        have hne : (k0 == q) = false := beq_eq_false_iff_ne.mpr h
        simp only [he, if_true, lookupKey, hne, if_false, Bool.false_eq_true]
      · simp only [Bool.not_eq_true] at he
        simp only [he, if_false, Bool.false_eq_true, lookupKey]
        by_cases hq : (k0 == q) = true
        · simp only [hq, if_true]
        · simp only [Bool.not_eq_true] at hq
          simp only [hq, if_false, Bool.false_eq_true]
          exact ih k v h

theorem lookupKey_setKey_self (k : String) (v : PyVal) : ∀ (d : PyDict),
    lookupKey (setKey d k v) k = Option.some v := by
  intro d
  induction d with
  | nil => simp [setKey, lookupKey]
  | cons kv rest ih =>
      obtain ⟨k0, v0⟩ := kv
      simp only [setKey]
      by_cases he : k0 == k
      · simp [he, lookupKey]
      · simp only [Bool.not_eq_true] at he
        simp only [he, if_false, Bool.false_eq_true, lookupKey, ih]

theorem lookupKey_pyUpdate_not_mem (q : String) :
    ∀ (u : PyDict) (d : PyDict), (∀ kv ∈ u, kv.1 ≠ q) →
    lookupKey (pyUpdate d u) q = lookupKey d q := by
  intro u
  induction u with
  | nil => intro d _; rfl
  | cons kv u' ih =>
      intro d h
      show lookupKey (pyUpdate (setKey d kv.1 kv.2) u') q = _
      rw [ih (setKey d kv.1 kv.2) (fun x hx => h x (List.mem_cons_of_mem kv hx)),
        lookupKey_setKey_ne q d kv.1 kv.2 (h kv (List.mem_cons_self kv u'))]

theorem pyGet_pyUpdate_not_mem (q : String) (u d : PyDict)
    (h : ∀ kv ∈ u, kv.1 ≠ q) : pyGet (pyUpdate d u) q = pyGet d q := by
  simp only [pyGet, lookupKey_pyUpdate_not_mem q u d h]

theorem mem_insertOrd {le : PyDict → PyDict → Bool} {x y : PyDict} :
    ∀ {l : List PyDict}, x ∈ insertOrd le y l ↔ x = y ∨ x ∈ l := by
  intro l
  induction l with
  | nil => simp [insertOrd]
  | cons z zs ih =>
      simp only [insertOrd]
      by_cases h : le y z
      · simp [h]
      · simp only [h, if_false, Bool.false_eq_true, List.mem_cons, ih]
        tauto

theorem mem_sortOrd {le : PyDict → PyDict → Bool} {x : PyDict} :
    ∀ {l : List PyDict}, x ∈ sortOrd le l ↔ x ∈ l := by
  intro l
  induction l with
  | nil => simp [sortOrd]
  | cons z zs ih =>
      simp only [sortOrd, mem_insertOrd, List.mem_cons, ih]

theorem padded_head_digit (t : Nat) :
    ∃ c rest, padded t = c :: rest ∧ isDigitCh c = true := by
  cases hpd : padded t with
  | nil =>
      exfalso
      have := natDigits_ne_nil t
      simp only [padded] at hpd
      rcases List.append_eq_nil.mp hpd with ⟨_, h2⟩
      exact this h2
  | cons c rest =>
      refine ⟨c, rest, rfl, ?_⟩
      apply padded_all_digits t
      rw [hpd]
      exact List.mem_cons_self c rest

theorem results_prefix_padded_false (t : Nat) :
    ("RESULTS#".data).isPrefixOf (padded t) = false := by
  obtain ⟨c, rest, hpd, hc⟩ := padded_head_digit t
  rw [hpd, show "RESULTS#".data = 'R' :: "ESULTS#".data from by decide]
  have hne : ('R' == c) = false := by
    apply beq_eq_false_iff_ne.mpr
    intro he
    rw [← he] at hc
    simp [isDigitCh] at hc
  simp only [List.isPrefixOf, hne, Bool.false_and]

theorem ddbQueryPred_frameResult_false (pkq input_video_name : PyVal) (t : Nat)
    (cel resp : PyVal) (s3_key prockey : String) (bucket : PyVal) :
    ddbQueryPred pkq "RESULTS#"
      (mkFrameResultItem input_video_name t cel resp s3_key prockey bucket) = false := by
  have hSK : pyGet (mkFrameResultItem input_video_name t cel resp s3_key
      prockey bucket) "SK" = .str (String.mk (padded t)) := rfl
  simp only [ddbQueryPred, hSK]
  have h2 : (['R', 'E', 'S', 'U', 'L', 'T', 'S', '#'] : List Char).isPrefixOf
      (padded t) = false := by
    rw [show (['R', 'E', 'S', 'U', 'L', 'T', 'S', '#'] : List Char) =
      "RESULTS#".data from by decide]
    exact results_prefix_padded_false t
  simp [h2]

theorem query_put_frameResult (table : List PyDict) (pkq input_video_name : PyVal)
    (t : Nat) (cel resp : PyVal) (s3_key prockey : String) (bucket : PyVal) :
    ddb_query_begins_with
      (ddb_put_item table
        (mkFrameResultItem input_video_name t cel resp s3_key prockey bucket))
      pkq "RESULTS#" = ddb_query_begins_with table pkq "RESULTS#" := by
  unfold ddb_query_begins_with ddb_put_item
  congr 1
  rw [List.filter_cons,
    if_neg (by simp [ddbQueryPred_frameResult_false]), List.filter_filter]
  apply List.filter_congr
  intro a _
  cases hpred : ddbQueryPred pkq "RESULTS#" a with
  | false => simp
  | true =>
      simp only [Bool.true_and]
      have hSK : pyGet (mkFrameResultItem input_video_name t cel resp s3_key
          prockey bucket) "SK" = .str (String.mk (padded t)) := rfl
      rw [hSK]
      cases hska : pyGet a "SK" with
      | str s' =>
          cases hbe : (s' == String.mk (padded t)) with
          | false => simp [scalarEq, hbe]
          | true =>
              exfalso
              have hs' : s' = String.mk (padded t) := beq_iff_eq.mp hbe
              simp only [ddbQueryPred, hska, hs'] at hpred
              have h2 : (['R', 'E', 'S', 'U', 'L', 'T', 'S', '#'] : List Char).isPrefixOf
                  (padded t) = false := by
                rw [show (['R', 'E', 'S', 'U', 'L', 'T', 'S', '#'] : List Char) =
                  "RESULTS#".data from by decide]
                exact results_prefix_padded_false t
              simp only [h2, Bool.and_false] at hpred
              exact Bool.false_ne_true hpred
      | none => simp [scalarEq]
      | nat m => simp [scalarEq]
      | list xs => simp [scalarEq]
      | dict fs => simp [scalarEq]

/-! ### Handler output shape -/

theorem pyReplace_match_raw (s rep : List Char) :
    pyReplace (rawPat ++ s) rawPat rep = rep ++ pyReplace s rawPat rep :=
  pyReplace_match 'r' ['a', 'w'] s rep

theorem rawFrameKey_decomp (san : List Char) (t : Nat) :
    rawFrameKey san t = "results".data ++ '/' ::
      (san ++ '/' :: (rawPat ++ ("/screenshot_".data ++ (padded t ++ ".jpg".data)))) := by
  rw [rawFrameKey,
    show "results/".data = "results".data ++ ['/'] from by decide,
    show "/raw".data = '/' :: rawPat from by decide]
  simp [List.append_assoc, List.cons_append, List.singleton_append]

theorem process_ok_shape {ev : PyDict} {env : ProcEnv} {tr : List Act}
    {ev' : PyDict} (hp : process_images ev env = (tr, .ok ev')) :
    ∃ cel prockey,
      ev' = pyUpdate ev
        [("total_celebrities", cel),
         ("rekognition_detect_face_response", env.response),
         ("s3_processed_image_key", .str prockey)] := by
  cases hk : pyGet ev "s3_key" with
  | str s3k =>
      cases hd : processImages_draw_faces env.response with
      | ok cel =>
          cases hf : pyGet ev "frame_time" with
          | nat t =>
              simp only [process_images, hk, hd, hf, Prod.mk.injEq] at hp
              exact ⟨cel, _, (Except.ok.injEq _ _ |>.mp hp.2).symm⟩
          | none => simp only [process_images, hk, hd, hf, Prod.mk.injEq] at hp; simp at hp
          | str s => simp only [process_images, hk, hd, hf, Prod.mk.injEq] at hp; simp at hp
          | list l => simp only [process_images, hk, hd, hf, Prod.mk.injEq] at hp; simp at hp
          | dict d => simp only [process_images, hk, hd, hf, Prod.mk.injEq] at hp; simp at hp
      | error e => simp only [process_images, hk, hd, Prod.mk.injEq] at hp; simp at hp
  | none => simp only [process_images, hk, Prod.mk.injEq] at hp; simp at hp
  | nat n => simp only [process_images, hk, Prod.mk.injEq] at hp; simp at hp
  | list l => simp only [process_images, hk, Prod.mk.injEq] at hp; simp at hp
  | dict d => simp only [process_images, hk, Prod.mk.injEq] at hp; simp at hp

theorem arrange_ok_shape {ev : PyDict} {table : List PyDict} {tr : List Act}
    {ev' : PyDict} (ha : arrange_final_results ev table = (tr, .ok ev')) :
    ∃ key, ev' = pyUpdate ev [("arranged_results_s3_key", .str key)] := by
  cases hk : pyGet ev "input_video_name" with
  | str pk =>
      simp only [arrange_final_results, hk, Prod.mk.injEq] at ha
      exact ⟨_, (Except.ok.injEq _ _ |>.mp ha.2).symm⟩
  | none => simp only [arrange_final_results, hk, Prod.mk.injEq] at ha; simp at ha
  | nat n => simp only [arrange_final_results, hk, Prod.mk.injEq] at ha; simp at ha
  | list l => simp only [arrange_final_results, hk, Prod.mk.injEq] at ha; simp at ha
  | dict d => simp only [arrange_final_results, hk, Prod.mk.injEq] at ha; simp at ha

theorem process_ok_pyGet_preserved {ev : PyDict} {env : ProcEnv} {tr : List Act}
    {ev' : PyDict} (hp : process_images ev env = (tr, .ok ev')) (q : String)
    (h1 : q ≠ "total_celebrities") (h2 : q ≠ "rekognition_detect_face_response")
    (h3 : q ≠ "s3_processed_image_key") : pyGet ev' q = pyGet ev q := by
  obtain ⟨cel, prockey, rfl⟩ := process_ok_shape hp
  apply pyGet_pyUpdate_not_mem
  intro kv hkv
  simp only [List.mem_cons, List.not_mem_nil, or_false] at hkv
  rcases hkv with rfl | rfl | rfl
  · exact fun he => h1 he.symm
  · exact fun he => h2 he.symm
  · exact fun he => h3 he.symm

theorem arrange_ok_pyGet_preserved {ev : PyDict} {table : List PyDict}
    {tr : List Act} {ev' : PyDict}
    (ha : arrange_final_results ev table = (tr, .ok ev')) (q : String)
    (h1 : q ≠ "arranged_results_s3_key") : pyGet ev' q = pyGet ev q := by
  obtain ⟨key, rfl⟩ := arrange_ok_shape ha
  apply pyGet_pyUpdate_not_mem
  intro kv hkv
  simp only [List.mem_cons, List.not_mem_nil, or_false] at hkv
  rcases hkv with rfl
  exact fun he => h1 he.symm

theorem lookupKey_pyUpdate1 (d : PyDict) (k : String) (v : PyVal) :
    lookupKey (pyUpdate d [(k, v)]) k = Option.some v :=
  lookupKey_setKey_self k v d

theorem lookupKey_pyUpdate3_last (d : PyDict) (k1 k2 k3 : String)
    (v1 v2 v3 : PyVal) :
    lookupKey (pyUpdate d [(k1, v1), (k2, v2), (k3, v3)]) k3 = Option.some v3 :=
  lookupKey_setKey_self k3 v3 _

theorem lookupKey_pyUpdate3_mid (d : PyDict) (k1 k2 k3 : String)
    (v1 v2 v3 : PyVal) (h : k3 ≠ k2) :
    lookupKey (pyUpdate d [(k1, v1), (k2, v2), (k3, v3)]) k2 = Option.some v2 := by
  show lookupKey (setKey (setKey (setKey d k1 v1) k2 v2) k3 v3) k2 = _
  rw [lookupKey_setKey_ne k2 _ k3 v3 h]
  exact lookupKey_setKey_self k2 v2 _

theorem lookupKey_pyUpdate3_fst (d : PyDict) (k1 k2 k3 : String)
    (v1 v2 v3 : PyVal) (h2 : k2 ≠ k1) (h3 : k3 ≠ k1) :
    lookupKey (pyUpdate d [(k1, v1), (k2, v2), (k3, v3)]) k1 = Option.some v1 := by
  show lookupKey (setKey (setKey (setKey d k1 v1) k2 v2) k3 v3) k1 = _
  rw [lookupKey_setKey_ne k1 _ k3 v3 h3, lookupKey_setKey_ne k1 _ k2 v2 h2]
  exact lookupKey_setKey_self k1 v1 _

/-! ### Claims -/

/-- C1: the round-trip between the processing stage and the aggregation
stage is broken in the code. Every FrameResult record the processing stage
upserts (partition key video_name, sort key the zero-padded frame_time) does
land in the table, but the aggregation query filters on sort-key prefix
RESULTS#, which no zero-padded frame_time ever carries, so the query never
returns the written record: the aggregation stage sees exactly what it would
have seen had the write never happened. -/
theorem frame_results_invisible_to_aggregation (table : List PyDict) (v : PyVal)
    (t : Nat) (cel resp : PyVal) (s3_key prockey : String) (bucket : PyVal) :
    mkFrameResultItem v t cel resp s3_key prockey bucket ∈
        save_results_in_dynamodb table v t cel resp s3_key prockey bucket ∧
      mkFrameResultItem v t cel resp s3_key prockey bucket ∉
        load_results_from_dynamodb
          (save_results_in_dynamodb table v t cel resp s3_key prockey bucket) v ∧
      load_results_from_dynamodb
          (save_results_in_dynamodb table v t cel resp s3_key prockey bucket) v =
        load_results_from_dynamodb table v := by
  refine ⟨List.mem_cons_self _ _, ?_,
    query_put_frameResult table v v t cel resp s3_key prockey bucket⟩
  intro hmem
  unfold load_results_from_dynamodb ddb_query_begins_with at hmem
  rw [mem_sortOrd] at hmem
  have hpred := (List.mem_filter.mp hmem).2
  rw [ddbQueryPred_frameResult_false] at hpred
  exact Bool.false_ne_true hpred

/-- C2 counterexample: a run whose event expects ten frames but whose table
holds none. ArrangeFinalResults succeeds and uploads the (empty) manifest
anyway, instead of failing without persisting anything. -/
theorem arrange_emits_partial_manifest_cex :
    arrange_final_results arrEvC2 [] =
      ([.ddbQuery (.str "got.mp4") "RESULTS#",
        .s3UploadJson "results/got/arranged_results.json" (.list [])],
       .ok (arrEvC2 ++ [("arranged_results_s3_key",
         .str "results/got/arranged_results.json")])) ∧
      (load_results_from_dynamodb [] (.str "got.mp4")).length = 0 ∧
      pyGet arrEvC2 "total_images" = .nat 10 ∧ (0 : Nat) ≠ 10 :=
  ⟨rfl, rfl, rfl, by decide⟩

/-- C2 amended: ArrangeFinalResults.arrange_final_results performs no count
validation at all: whenever input_video_name is a string it queries the
table and unconditionally uploads whatever came back as the manifest,
succeeding regardless of how the retrieved count compares to the event's
total_images. -/
theorem arrange_always_uploads (ev : PyDict) (table : List PyDict) (s : String)
    (h : pyGet ev "input_video_name" = .str s) :
    arrange_final_results ev table =
      ([.ddbQuery (.str s) "RESULTS#",
        .s3UploadJson (String.mk ("results/".data ++ takeBefore s.data ".mp4".data ++
          "/arranged_results.json".data))
          (.list ((load_results_from_dynamodb table (.str s)).map PyVal.dict))],
       .ok (pyUpdate ev [("arranged_results_s3_key",
         .str (String.mk ("results/".data ++ takeBefore s.data ".mp4".data ++
           "/arranged_results.json".data)))])) := by
  simp only [arrange_final_results, h]

/-- Witness for the amended C2 theorem at a concrete mismatching input. -/
theorem arrange_always_uploads_witness :
    pyGet arrEvC2 "input_video_name" = .str "got.mp4" ∧
      arrange_final_results arrEvC2 [] =
        ([.ddbQuery (.str "got.mp4") "RESULTS#",
          .s3UploadJson (String.mk ("results/".data ++
            takeBefore "got.mp4".data ".mp4".data ++
            "/arranged_results.json".data))
            (.list ((load_results_from_dynamodb [] (.str "got.mp4")).map PyVal.dict))],
         .ok (pyUpdate arrEvC2 [("arranged_results_s3_key",
           .str (String.mk ("results/".data ++
             takeBefore "got.mp4".data ".mp4".data ++
             "/arranged_results.json".data)))])) :=
  ⟨rfl, arrange_always_uploads arrEvC2 [] "got.mp4" rfl⟩

/-- C3 counterexample: a run whose triggering event carries no
correlation_id. The first stage generates uuid-1 but does not write it into
the event it returns, so the next stage generates uuid-2 instead of
observing uuid-1. -/
theorem correlation_id_regenerated_cex :
    baseCorrelationId procEvNoCid "uuid-1" = .str "uuid-1" ∧
      process_images procEvNoCid procEnvFix = (procTraceFix, .ok procOutNoCid) ∧
      baseCorrelationId procOutNoCid "uuid-2" = .str "uuid-2" ∧
      PyVal.str "uuid-2" ≠ PyVal.str "uuid-1" := by
  refine ⟨rfl, rfl, rfl, ?_⟩
  intro h
  rw [PyVal.str.injEq] at h
  exact absurd h (by decide)

/-- C3 amended: a correlation_id is constant across stages only when the
event supplies one (a truthy value): the handlers never touch the
correlation_id entry, so every later BaseStepFunction computes the same
value; a generated id, by contrast, is never written back into the event,
and each later stage generates a fresh one. -/
theorem correlation_id_constant_when_supplied (ev ev1 ev2 : PyDict)
    (env : ProcEnv) (table : List PyDict) (tr1 tr2 : List Act) (f0 f1 f2 : String)
    (hc : truthy (pyGet ev "correlation_id") = true)
    (hp : process_images ev env = (tr1, .ok ev1))
    (ha : arrange_final_results ev1 table = (tr2, .ok ev2)) :
    baseCorrelationId ev1 f1 = baseCorrelationId ev f0 ∧
      baseCorrelationId ev2 f2 = baseCorrelationId ev f0 := by
  have e1 : pyGet ev1 "correlation_id" = pyGet ev "correlation_id" :=
    process_ok_pyGet_preserved hp _ (by decide) (by decide) (by decide)
  have e2 : pyGet ev2 "correlation_id" = pyGet ev "correlation_id" := by
    rw [arrange_ok_pyGet_preserved ha _ (by decide), e1]
  constructor
  · simp only [baseCorrelationId, e1, hc, if_true]
  · simp only [baseCorrelationId, e2, hc, if_true]

/-- Witness for the amended C3 theorem on a concrete two-stage run. -/
theorem correlation_id_constant_when_supplied_witness :
    (truthy (pyGet procEvFix "correlation_id") = true ∧
      process_images procEvFix procEnvFix = (procTraceFix, .ok procOutFix) ∧
      arrange_final_results procOutFix [] = (arrTraceFix, .ok arrOutFix)) ∧
    (baseCorrelationId procOutFix "x1" = baseCorrelationId procEvFix "x0" ∧
      baseCorrelationId arrOutFix "x2" = baseCorrelationId procEvFix "x0") :=
  ⟨⟨rfl, rfl, rfl⟩,
    correlation_id_constant_when_supplied procEvFix procOutFix arrOutFix
      procEnvFix [] procTraceFix arrTraceFix "x0" "x1" "x2" rfl rfl rfl⟩

/-- C4: the celebrity count never reaches the FrameResult. The inner
ImageDrawing.draw_faces computes the count (here 2), but
ProcessImages.draw_faces discards it and, having no return statement,
returns None; the record and the event therefore store None as celebrities
and total_celebrities, not the number of CelebrityFaces detections. -/
theorem draw_faces_celebrity_count_lost :
    imageDrawing_draw_faces respTwoFix = .ok 2 ∧
      processImages_draw_faces respTwoFix = .ok PyVal.none ∧
      process_images procEvC4 ⟨respTwoFix⟩ = (traceC4, .ok outC4) ∧
      pyGet itemC4 "celebrities" = PyVal.none ∧
      pyGet outC4 "total_celebrities" = PyVal.none ∧
      PyVal.none ≠ PyVal.nat 2 := by
  refine ⟨rfl, rfl, rfl, rfl, rfl, ?_⟩
  intro h
  exact PyVal.noConfusion h

/-- C6: when the triggering event's bucket name or object key is missing or
empty, ConvertVideoToImages.convert_video_to_images raises ValueError with
an empty action trace: no video download, no frame upload and no manifest
write happen before the run fails. -/
theorem ingest_validation_fails_fast (ev : PyDict) (bv kv : PyVal)
    (hb : getBucketNameVal ev = .ok bv) (hk : getObjectKeyVal ev = .ok kv)
    (hor : truthy bv = false ∨ truthy kv = false) :
    (convert_video_to_images ev).1 = [] ∧
      ∃ msg, (convert_video_to_images ev).2 = .error (.valueError msg) := by
  rcases hor with h | h
  · have hconv : convert_video_to_images ev =
        ([], .error (.valueError "No S3 bucket name found for the input video!")) := by
      simp [convert_video_to_images, hb, h]
    rw [hconv]
    exact ⟨rfl, _, rfl⟩
  · cases hbv : truthy bv with
    | false =>
        have hconv : convert_video_to_images ev =
            ([], .error (.valueError "No S3 bucket name found for the input video!")) := by
          simp [convert_video_to_images, hb, hbv]
        rw [hconv]
        exact ⟨rfl, _, rfl⟩
    | true =>
        have hconv : convert_video_to_images ev =
            ([], .error (.valueError "No S3 key found for the input video!")) := by
          simp [convert_video_to_images, hb, hbv, hk, h]
        rw [hconv]
        exact ⟨rfl, _, rfl⟩

/-- Witness for C6 at the empty triggering event. -/
theorem ingest_validation_fails_fast_witness :
    (getBucketNameVal [] = .ok PyVal.none ∧ getObjectKeyVal [] = .ok PyVal.none ∧
      truthy PyVal.none = false) ∧
    ((convert_video_to_images []).1 = [] ∧
      ∃ msg, (convert_video_to_images []).2 = .error (.valueError msg)) :=
  ⟨⟨rfl, rfl, rfl⟩,
    ingest_validation_fails_fast [] PyVal.none PyVal.none rfl rfl (Or.inl rfl)⟩

/-- C7 counterexample: a video whose name contains the substring raw. The
substitution s3_key.replace changes the video-name segment too: for video
braw.mp4 at frame 1 the re-upload key is
results/bprocessed/processed/screenshot_00001.jpg, not the claimed
results/braw/processed/screenshot_00001.jpg. -/
theorem processed_key_altered_video_segment_cex :
    generate_s3_processed_image_key (rawFrameKey "braw".data 1) =
        "results/bprocessed/processed/screenshot_00001.jpg".data ∧
      generate_s3_processed_image_key (rawFrameKey "braw".data 1) ≠
        specProcessedFrameKey "braw".data 1 ∧
      specProcessedFrameKey "braw".data 1 =
        "results/braw/processed/screenshot_00001.jpg".data :=
  ⟨by decide, by decide, by decide⟩

/-- C7 amended: the substitution replaces every occurrence of the substring
raw in the whole key, not just the raw path segment; when the sanitized
video name contains no occurrence of raw, the result is exactly the
raw→processed path substitution with no other part of the key altered. -/
theorem processed_key_replaces_all_raw (san : List Char) (t : Nat)
    (hsan : containsSeq rawPat san = false) :
    generate_s3_processed_image_key (rawFrameKey san t) =
      specProcessedFrameKey san t := by
  rw [generate_s3_processed_image_key,
    show "raw".data = rawPat from by decide,
    rawFrameKey_decomp san t,
    pyReplace_append_skip (show ('/' : Char) ∉ rawPat from by decide) _
      (show containsSeq rawPat "results".data = false from by decide),
    pyReplace_cons_noMatch (rawPat_pfx_false_head _ (by decide)),
    pyReplace_append_skip (show ('/' : Char) ∉ rawPat from by decide) _ hsan,
    pyReplace_cons_noMatch (rawPat_pfx_false_head _ (by decide)),
    pyReplace_match_raw,
    pyReplace_no_occurrence (containsSeq_raw_tail t)]
  rw [specProcessedFrameKey,
    show "results/".data = "results".data ++ ['/'] from by decide,
    show "/processed/screenshot_".data =
      '/' :: ("processed".data ++ "/screenshot_".data) from by decide]
  simp [List.append_assoc, List.cons_append, List.singleton_append]

/-- Witness for the amended C7 theorem on the video name got. -/
theorem processed_key_replaces_all_raw_witness :
    containsSeq rawPat "got".data = false ∧
      generate_s3_processed_image_key (rawFrameKey "got".data 7) =
        specProcessedFrameKey "got".data 7 :=
  ⟨by decide, processed_key_replaces_all_raw "got".data 7 (by decide)⟩

/-- C9: the extraction loop raises instead of running to end-of-stream. On
the first successfully read frame the body calls S3Helper.upload_object,
which does not exist, so an opened three-frame capture raises
AttributeError; the normal return of the accumulated screenshot list is
reached only when the very first read already fails (an empty stream), and
an unopened capture raises the explicit initialization exception. -/
theorem extract_frames_raises_on_first_frame :
    extract_frames_and_upload_to_s3 ⟨true, 3, 1⟩ = .error .attributeError ∧
      extract_frames_and_upload_to_s3 ⟨true, 0, 1⟩ = .ok [] ∧
      extractLoop 3 1 0 = .error .attributeError ∧
      extract_frames_and_upload_to_s3 ⟨false, 3, 1⟩ =
        .error (.exception "Video capture object is not initialized") :=
  ⟨rfl, rfl, rfl, rfl⟩

/-- C10: event passthrough. ProcessImages.process_images and
ArrangeFinalResults.arrange_final_results return the received event extended
with exactly their output keys, preserving every other entry; but
ConvertVideoToImages.convert_video_to_images never returns an event at all —
even on a fully valid triggering event it raises TypeError at the
VideoCutterS3 construction (unexpected keyword argument input_video_name). -/
theorem state_handlers_event_passthrough :
    convert_video_to_images convEvValid = ([], .error .typeError) ∧
      (∀ (ev : PyDict) (env : ProcEnv) (tr : List Act) (ev' : PyDict) (q : String),
        process_images ev env = (tr, .ok ev') →
        q ≠ "total_celebrities" → q ≠ "rekognition_detect_face_response" →
        q ≠ "s3_processed_image_key" → pyGet ev' q = pyGet ev q) ∧
      (∀ (ev : PyDict) (env : ProcEnv) (tr : List Act) (ev' : PyDict),
        process_images ev env = (tr, .ok ev') →
        lookupKey ev' "total_celebrities" ≠ Option.none ∧
          lookupKey ev' "rekognition_detect_face_response" =
            Option.some env.response ∧
          lookupKey ev' "s3_processed_image_key" ≠ Option.none) ∧
      (∀ (ev : PyDict) (table : List PyDict) (tr : List Act) (ev' : PyDict)
        (q : String),
        arrange_final_results ev table = (tr, .ok ev') →
        q ≠ "arranged_results_s3_key" → pyGet ev' q = pyGet ev q) ∧
      (∀ (ev : PyDict) (table : List PyDict) (tr : List Act) (ev' : PyDict),
        arrange_final_results ev table = (tr, .ok ev') →
        lookupKey ev' "arranged_results_s3_key" ≠ Option.none) := by
  refine ⟨rfl, ?_, ?_, ?_, ?_⟩
  · intro ev env tr ev' q hp h1 h2 h3
    exact process_ok_pyGet_preserved hp q h1 h2 h3
  · intro ev env tr ev' hp
    obtain ⟨cel, prockey, rfl⟩ := process_ok_shape hp
    refine ⟨?_, ?_, ?_⟩
    · rw [lookupKey_pyUpdate3_fst _ _ _ _ _ _ _ (by decide) (by decide)]
      simp
    · rw [lookupKey_pyUpdate3_mid _ _ _ _ _ _ _ (by decide)]
    · rw [lookupKey_pyUpdate3_last]
      simp
  · intro ev table tr ev' q ha h1
    exact arrange_ok_pyGet_preserved ha q h1
  · intro ev table tr ev' ha
    obtain ⟨key, rfl⟩ := arrange_ok_shape ha
    rw [lookupKey_pyUpdate1]
    simp

/-- Witness for the quantified parts of the C10 theorem on a concrete run. -/
theorem state_handlers_event_passthrough_witness :
    process_images procEvC4 ⟨respTwoFix⟩ = (traceC4, .ok outC4) ∧
      pyGet outC4 "s3_key" = pyGet procEvC4 "s3_key" ∧
      lookupKey outC4 "rekognition_detect_face_response" =
        Option.some respTwoFix :=
  ⟨rfl,
    state_handlers_event_passthrough.2.1 procEvC4 ⟨respTwoFix⟩ traceC4 outC4
      "s3_key" rfl (by decide) (by decide) (by decide),
    (state_handlers_event_passthrough.2.2.1 procEvC4 ⟨respTwoFix⟩ traceC4 outC4
      rfl).2.1⟩

/-- C8: zero-padded ordering. For frame times t1 < t2 up to 99999 the
5-character zero-padded keys written by the frame extractor and the
FrameResult sort key compare strictly in lexicographic order, and distinct
frame times give distinct keys. -/
theorem padded_lex_chronological (t1 t2 : Nat) (h1 : t1 < t2) (h2 : t2 ≤ 99999) :
    lexLt (padded t1) (padded t2) = true ∧ padded t1 ≠ padded t2 := by
  have ha : (padded t1).length = 5 := padded_length (by omega)
  have hb : (padded t2).length = 5 := padded_length h2
  have hval : valDigits (padded t1) < valDigits (padded t2) := by
    rw [valDigits_padded, valDigits_padded]
    exact h1
  refine ⟨lexLt_of_valDigits_lt _ _ (by omega) (padded_all_digits t1)
    (padded_all_digits t2) hval, ?_⟩
  intro he
  rw [he] at hval
  omega

/-- Witness for C8 at frame times 3 and 12. -/
theorem padded_lex_chronological_witness :
    (3 < 12 ∧ 12 ≤ 99999) ∧
      (lexLt (padded 3) (padded 12) = true ∧ padded 3 ≠ padded 12) :=
  ⟨by decide, padded_lex_chronological 3 12 (by decide) (by decide)⟩
